import Mathlib

/-!
Verification of the signal-tracing instrumentation in trace_signals.py.

The file shallowly embeds the relevant parts of the source:

* The global trace state of the `Context` class (`Context.depth`,
  `Context.call_count`, `Context.current_context`, plus the lines already
  handed to the output sink) becomes the record `TraceState`.  The output is
  kept as a list of `LogLine` records; the string actually passed to the sink
  is the `text` field, while `chan`, `number` and `depth` are ghost
  annotations recording the values of `call.name`, `call.number` and
  `Context.depth` that the source reads when it builds that very string.
* `SigCall`, `Context.__enter__` / `__exit__`, `Context.log`,
  `Context.log_call`, `Context.log_receive`, `get_signal_name`,
  `patch_receiver`, `_live_receivers_wrapper`, `send_wrapper`,
  `send_robust_wrapper`, `patch_signal` and `unpatch` are translated one by
  one below, keeping the source names.
* Receivers and the dispatches their bodies perform are given by the mutual
  AST `Rcv` / `Act`; Python exceptions become the `Err` values of an
  `Except`.  Execution is a fuel-indexed interpreter `interp`, defined by
  plain structural recursion on the fuel so that every run is computable and
  kernel-reducible; running out of fuel yields the artificial error
  `Err.fuelOut` and is never identified with behaviour of the source.
-/

namespace TraceSignals

/-- Return values of receivers (Python objects; any countable stand-in works). -/
abbrev Val := Nat

/-- Python exceptions reaching the embedding.  `user` is an exception raised
by a receiver body, `attrErr` is the `AttributeError` raised by
`Context.current_context.log_receive(...)` when `current_context` is `None`,
and `fuelOut` is the artificial out-of-fuel marker of the interpreter (not a
behaviour of the source). -/
inductive Err where
  | user (msg : String)
  | attrErr
  | fuelOut
deriving Repr, DecidableEq

/-- The `sender` argument of a send: either a class (`isinstance(sender, type)`
holds; carries `sender.__name__`) or a plain object (carries its `repr`). -/
inductive Sender where
  | type (name : String)
  | obj (reprStr : String)
deriving Repr, DecidableEq

/-- A value stored under the key `instance` in the send kwargs: its Python
truthiness and, when `hasattr(instance, 'pk')`, the string rendering of
`instance.pk`. -/
structure Inst where
  truthy : Bool
  pk : Option String
deriving Repr, DecidableEq

/-- The keyword arguments of a send.  Only the key `instance` is ever read by
the source (`call.kwargs.get('instance')` in `log_call`), so the model keeps
just that entry; `none` means the key is absent. -/
structure Kwargs where
  instanceVal : Option Inst
deriving Repr, DecidableEq

/-- The `SigCall` named tuple of the source. -/
structure SigCall where
  number : Nat
  method : String
  module : String
  name : String
  sender : Sender
  kwargs : Kwargs
deriving Repr, DecidableEq

/-- A `Context` object: its `call` and its `parent` (the value of
`Context.current_context` captured in `__init__`).  The `depth` counter is
class-level state in the source and therefore lives in `TraceState`, not
here. -/
inductive Ctx where
  | mk (call : SigCall) (parent : Option Ctx)
deriving Repr

/-- Field accessor for `Ctx.call`. -/
def Ctx.call : Ctx → SigCall
  | .mk c _ => c

/-- Field accessor for `Ctx.parent`. -/
def Ctx.parent : Ctx → Option Ctx
  | .mk _ p => p

/-- One line handed to the output sink.  `text` is the exact string passed to
`output`; `chan`, `number`, `depth` are ghost copies of `call.name`,
`call.number` and `Context.depth` at emission time. -/
structure LogLine where
  chan : String
  number : Nat
  depth : Nat
  text : String
deriving Repr, DecidableEq

/-- The process-wide mutable state of the `Context` class together with the
output already emitted.  `seqLog` is a ghost list recording every sequence
number in the order `Context.with_call` allocated it. -/
structure TraceState where
  depth : Nat
  callCount : Nat
  currentContext : Option Ctx
  output : List LogLine
  seqLog : List Nat
deriving Repr

/-- The state at interpreter start-up: fresh class attributes `depth = 0`,
`call_count = 0`, `current_context = None`, nothing emitted. -/
def initState : TraceState :=
  { depth := 0, callCount := 0, currentContext := none, output := [], seqLog := [] }

/-- `Context.base_indent`. -/
def baseIndent : String := "    "

/-- `base_indent * depth`. -/
def indentStr (depth : Nat) : String :=
  String.join (List.replicate depth baseIndent)

/-- `Context.log`: emit `indent + msg` unless `call.name` is suppressed. -/
def ctxLog (suppress : List String) (call : SigCall) (msg : String) (st : TraceState) : TraceState :=
  if call.name ∈ suppress then st
  else { st with output := st.output ++
          [{ chan := call.name, number := call.number, depth := st.depth,
             text := indentStr st.depth ++ msg }] }

/-- The sender rendering of `Context.log_call`: a class renders as its
`__name__`, extended by `' ({instance.pk})'` when the kwargs hold a truthy
`instance` that has a `pk`; any other sender renders as `repr(sender)`. -/
def senderDescriptor (sender : Sender) (kwargs : Kwargs) : String :=
  match sender with
  | .type n =>
    match kwargs.instanceVal with
    | some i =>
      match i.pk with
      | some pkv => if i.truthy then n ++ " (" ++ pkv ++ ")" else n
      | none => n
    | none => n
  | .obj r => r

/-- The qualified name built in `Context.log_call`:
`f'{call.module}.{call.name}'` when `call.module` is truthy, else `call.name`. -/
def qualName (module name : String) : String :=
  if module = "" then name else module ++ "." ++ name

/-- The message string of `Context.log_call`. -/
def log_call_msg (call : SigCall) : String :=
  call.method ++ " " ++ toString call.number ++ " "
    ++ qualName call.module call.name ++ " "
    ++ senderDescriptor call.sender call.kwargs

/-- `Context.log_call`. -/
def log_call (suppress : List String) (call : SigCall) (st : TraceState) : TraceState :=
  ctxLog suppress call (log_call_msg call) st

/-- `Context.__enter__`: push `self` as current and increment the depth. -/
def enterCtx (c : Ctx) (st : TraceState) : TraceState :=
  { st with currentContext := some c, depth := st.depth + 1 }

/-- `Context.__exit__`: restore the captured parent as current and decrement
the depth.  (`Nat` truncation at zero is unreachable: every exit in the
source runs with the matching enter already performed.) -/
def exitCtx (c : Ctx) (st : TraceState) : TraceState :=
  { st with currentContext := c.parent, depth := st.depth - 1 }

/-- The state effect of `Context.with_call`: increment `call_count` and build
the `SigCall` carrying the new count.  The ghost `seqLog` records the number. -/
def with_call (method module name : String) (sender : Sender) (kwargs : Kwargs)
    (st : TraceState) : SigCall × TraceState :=
  let n := st.callCount + 1
  ({ number := n, method := method, module := module, name := name,
     sender := sender, kwargs := kwargs },
   { st with callCount := n, seqLog := st.seqLog ++ [n] })

mutual
/-- A receiver: either an original callable (`base`, with a display name, a
body of dispatches it performs when invoked, and its result — `Except.error`
models the body raising), or a `receiver_wrapper` produced by
`patch_receiver` (`wrapped`, carrying the `__is_wrapped` sentinel that tagged
it and the `__receiver` back-reference). -/
inductive Rcv where
  | base (display : String) (body : List Act) (result : Except Err Val)
  | wrapped (marker : Nat) (orig : Rcv)

/-- An action a receiver body (or the application) performs: one dispatch on
a patched signal, `send` (`robust = false`) or `send_robust` (`robust =
true`), with the `(module, name)` that `get_signal_name` resolves for the
signal instance, the sender, the kwargs, and the signal's registered
receivers as `_live_receivers` returns them before wrapping. -/
inductive Act where
  | sendAct (robust : Bool) (module name : String) (sender : Sender)
      (kwargs : Kwargs) (receivers : List Rcv)
end

/-- `resolve_receiver`: the viewflow-proxy convention is integration-specific
and none of the embedded receivers is such a proxy, so the `hasattr` guard
fails and the receiver itself is returned. -/
def resolve_receiver (r : Rcv) : Rcv := r

/-- `get_receiver_name`: `functools.wraps` copies `__module__` and
`__qualname__` from the wrapped receiver onto the wrapper, so a wrapper
displays exactly as the receiver it wraps. -/
def get_receiver_name : Rcv → String
  | .base d _ _ => d
  | .wrapped _ orig => get_receiver_name orig

/-- `Context.log_receive`. -/
def log_receive (suppress : List String) (ctx : Ctx) (receiver : Rcv)
    (st : TraceState) : TraceState :=
  let receiver_name := get_receiver_name (resolve_receiver receiver)
  ctxLog suppress ctx.call
    ("RECEIVING " ++ toString ctx.call.number ++ " " ++ ctx.call.name ++ ": " ++ receiver_name)
    st

/-- `patch_receiver`: a receiver already tagged by this very call's sentinel
is returned unchanged; one tagged by another sentinel is first unwrapped to
its stored `__receiver`; anything untagged gets a fresh wrapper tagged with
the current sentinel. -/
def patch_receiver (sentinel : Nat) : Rcv → Rcv
  | .base d b r =>
    Rcv.wrapped sentinel (.base d b r)
  | .wrapped m orig =>
    if m = sentinel then Rcv.wrapped m orig
    else Rcv.wrapped sentinel orig

/-- `_live_receivers_wrapper`: the original live-receiver list with every
entry patched. -/
def live_receivers_wrapper (sentinel : Nat) (receivers : List Rcv) : List Rcv :=
  receivers.map (patch_receiver sentinel)

/-- One entry of a send's response list: the display name of the receiver
object Django records, with its response (`send_robust` stores a caught
exception here). -/
abbrev RcvResp := String × Except Err Val

/-- One fuel level of the interpreter: the five mutually recursive
evaluators.  `rcv` invokes a receiver, `acts` runs a body of dispatches in
order, `act` performs one patched dispatch (`send_wrapper` /
`send_robust_wrapper`), `plain` is Django's `Signal.send` loop over the
wrapped receivers (first exception propagates), `robust` is
`Signal.send_robust` (each receiver's exception is caught into its response
entry). -/
structure Interp where
  rcv : Rcv → TraceState → Except Err Val × TraceState
  acts : List Act → TraceState → Except Err Unit × TraceState
  act : Act → TraceState → Except Err (List RcvResp) × TraceState
  plain : List Rcv → TraceState → Except Err (List RcvResp) × TraceState
  robust : List Rcv → TraceState → List RcvResp × TraceState

/-- Fuel level zero: every evaluator reports `fuelOut` and leaves the state
untouched. -/
def interpZero : Interp where
  rcv := fun _ st => (.error .fuelOut, st)
  acts := fun _ st => (.error .fuelOut, st)
  act := fun _ st => (.error .fuelOut, st)
  plain := fun _ st => (.error .fuelOut, st)
  robust := fun _ st => ([], st)

/-- One step of the interpreter, delegating every nested call to the
previous fuel level `I`.  Each evaluator is a line-by-line translation of the
corresponding source function; see the field comments. -/
def buildStep (suppress : List String) (sentinel : Nat) (I : Interp) : Interp where
  /- `receiver_wrapper` (wrapped case) and a plain receiver call (base case).
     The wrapper logs the receive line through `Context.current_context`
     (raising `AttributeError` when that is `None`), then runs the original
     receiver inside `with Context():`; `__exit__` runs on every path, and the
     receiver's result — exceptional or not — is passed through untouched. -/
  rcv := fun r st =>
    match r with
    | .wrapped _ orig =>
      match st.currentContext with
      | none => (.error .attrErr, st)
      | some ctx =>
        let st1 := log_receive suppress ctx orig st
        let child := Ctx.mk ctx.call (some ctx)
        let p := I.rcv orig (enterCtx child st1)
        (p.1, exitCtx child p.2)
    | .base _ body ret =>
      let p := I.acts body st
      match p.1 with
      | .error e => (.error e, p.2)
      | .ok _ => (ret, p.2)
  /- A receiver body: run its dispatches in order; an uncaught exception
     aborts the rest of the body and propagates. -/
  acts := fun as st =>
    match as with
    | [] => (.ok (), st)
    | a :: rest =>
      let p := I.act a st
      match p.1 with
      | .error e => (.error e, p.2)
      | .ok _ => I.acts rest p.2
  /- `send_wrapper` / `send_robust_wrapper`: resolve the signal name (here
     carried by the `Act`), allocate the call via `Context.with_call`, log the
     header, then run the original entry point over the receivers that
     `_live_receivers_wrapper` wrapped, inside `with context:`. -/
  act := fun a st =>
    match a with
    | .sendAct robust module name sender kwargs receivers =>
      let (call, st1) :=
        with_call (if robust then "SEND_ROBUST" else "SEND") module name sender kwargs st
      let ctx := Ctx.mk call st.currentContext
      let st2 := log_call suppress call st1
      let st3 := enterCtx ctx st2
      let wrappedRs := live_receivers_wrapper sentinel receivers
      if robust then
        let p := I.robust wrappedRs st3
        (.ok p.1, exitCtx ctx p.2)
      else
        let p := I.plain wrappedRs st3
        (p.1, exitCtx ctx p.2)
  /- Django `Signal.send`: invoke each receiver in order, collecting
     `(receiver, response)`; the first exception propagates. -/
  plain := fun rs st =>
    match rs with
    | [] => (.ok [], st)
    | r :: rest =>
      let p := I.rcv r st
      match p.1 with
      | .error e => (.error e, p.2)
      | .ok v =>
        let q := I.plain rest p.2
        match q.1 with
        | .error e => (.error e, q.2)
        | .ok l => (.ok ((get_receiver_name r, Except.ok v) :: l), q.2)
  /- Django `Signal.send_robust`: invoke each receiver in order, catching its
     exception into the response entry and continuing. -/
  robust := fun rs st =>
    match rs with
    | [] => ([], st)
    | r :: rest =>
      let p := I.rcv r st
      let q := I.robust rest p.2
      ((get_receiver_name r, p.1) :: q.1, q.2)

/-- The interpreter at a given fuel, by structural recursion on the fuel. -/
def interp (suppress : List String) (sentinel : Nat) : Nat → Interp
  | 0 => interpZero
  | n + 1 => buildStep suppress sentinel (interp suppress sentinel n)

/-! ## Name resolution (`get_signal_name`)

`get_signal_name` first computes, from `gc.get_referrers`, the list
`reference_names` of pairs `(referrer.get('__name__', ''), key)` over the
dict referrers holding the signal under some key.  The object-graph walk is
outside the embedding; the selection over `reference_names` — the part the
claims are about — is translated exactly: a stable ascending sort by the
source's five-component key, then the last element (`[-1]`), which raises
`IndexError` on an empty list (modelled as `none`). -/

/-- Prefix test on character lists (kernel-reducible form of `startswith`). -/
def startsWithChars : List Char → List Char → Bool
  | [], _ => true
  | _ :: _, [] => false
  | a :: as, b :: bs => a == b && startsWithChars as bs

/-- Python's `s.startswith(p)` over code points. -/
def pyStartsWith (s p : String) : Bool :=
  startsWithChars p.data s.data

/-- The sort key of `get_signal_name`:
`(bool(name), bool(name) and name.startswith('django.'),
attr.startswith('_'), len(attr), (name, attr))`. -/
def sigNameKey (i : String × String) : Bool × Bool × Bool × Nat × String × String :=
  (i.1 != "", (i.1 != "") && pyStartsWith i.1 "django.", pyStartsWith i.2 "_", i.2.length, i.1, i.2)

/-- Lexicographic comparison of the sort keys, exactly Python's tuple
comparison (`False < True` on the booleans, numeric order on the length,
code-point order on the strings). -/
def keyCmp (a b : String × String) : Ordering :=
  match sigNameKey a, sigNameKey b with
  | (a1, a2, a3, a4, a5, a6), (b1, b2, b3, b4, b5, b6) =>
    ((((compare a1 b1).then (compare a2 b2)).then (compare a3 b3)).then
      (compare a4 b4)).then ((compare a5 b5).then (compare a6 b6))

/-- Stable insertion into an ascending list (the building block of a stable
ascending sort, as Python's `sorted`). -/
def insort (le : α → α → Bool) (x : α) : List α → List α
  | [] => [x]
  | y :: ys => if le x y then x :: y :: ys else y :: insort le x ys

/-- Stable ascending sort, as Python's `sorted`. -/
def pySorted (le : α → α → Bool) (l : List α) : List α :=
  l.foldr (insort le) []

/-- The selection step of `get_signal_name`: `sorted(reference_names, key=...)[-1]`.
`none` models the `IndexError` that `[-1]` raises when `reference_names` is
empty (no dict referrer holds the signal). -/
def get_signal_name (reference_names : List (String × String)) : Option (String × String) :=
  (pySorted (fun a b => keyCmp a b != Ordering.gt) reference_names).getLast?

/-! ## Install and revert (`patch_signal` / `unpatch`)

The three entry points the installer rebinds, as fields of a record.  In the
source the class branch saves `signal_cls._live_receivers`, `signal_cls.send`
and `signal_cls.send_robust` and `unpatch` assigns the three saved values
back; the instance branch saves and restores the three bound attributes of
the one instance in exactly the same way.  Both reverts are the same record
update with the three captured originals. -/

/-- A signal class or instance as the installer sees it: its three dispatch
entry points.  The receiver registry is passed to the entry points
explicitly (it stands for `self`'s registered receivers). -/
structure SignalCls where
  live_receivers : List Rcv → List Rcv
  send : Sender → Kwargs → List Rcv → TraceState → Except Err (List RcvResp) × TraceState
  send_robust : Sender → Kwargs → List Rcv → TraceState → List RcvResp × TraceState

/-- `patch_signal`: capture the three originals, rebind the three entry
points to the wrappers, and return the patched signal together with
`unpatch`, which re-assigns the three captured originals.  `module` and
`name` stand for the pair `get_signal_name` resolves at send time. -/
def patch_signal (suppress : List String) (sentinel : Nat) (module name : String)
    (sig : SignalCls) : SignalCls × (SignalCls → SignalCls) :=
  let original_live_receivers := sig.live_receivers
  let original_send := sig.send
  let original_send_robust := sig.send_robust
  ({ live_receivers := fun rs =>
       live_receivers_wrapper sentinel (original_live_receivers rs),
     send := fun sender kwargs rs st =>
       let (call, st1) := with_call "SEND" module name sender kwargs st
       let context := Ctx.mk call st1.currentContext
       let st2 := log_call suppress call st1
       let p := original_send sender kwargs rs (enterCtx context st2)
       (p.1, exitCtx context p.2),
     send_robust := fun sender kwargs rs st =>
       let (call, st1) := with_call "SEND_ROBUST" module name sender kwargs st
       let context := Ctx.mk call st1.currentContext
       let st2 := log_call suppress call st1
       let p := original_send_robust sender kwargs rs (enterCtx context st2)
       (p.1, exitCtx context p.2) },
   fun current =>
     { current with
        live_receivers := original_live_receivers,
        send := original_send,
        send_robust := original_send_robust })

/-! ## Field lemmas for the state helpers -/

@[simp] theorem ctxLog_depth (S : List String) (c : SigCall) (m : String) (st : TraceState) :
    (ctxLog S c m st).depth = st.depth := by
  unfold ctxLog; split <;> rfl

@[simp] theorem ctxLog_callCount (S : List String) (c : SigCall) (m : String) (st : TraceState) :
    (ctxLog S c m st).callCount = st.callCount := by
  unfold ctxLog; split <;> rfl

@[simp] theorem ctxLog_currentContext (S : List String) (c : SigCall) (m : String) (st : TraceState) :
    (ctxLog S c m st).currentContext = st.currentContext := by
  unfold ctxLog; split <;> rfl

@[simp] theorem ctxLog_seqLog (S : List String) (c : SigCall) (m : String) (st : TraceState) :
    (ctxLog S c m st).seqLog = st.seqLog := by
  unfold ctxLog; split <;> rfl

theorem ctxLog_output (S : List String) (c : SigCall) (m : String) (st : TraceState) :
    (ctxLog S c m st).output = st.output ++
      (if c.name ∈ S then [] else
        [{ chan := c.name, number := c.number, depth := st.depth,
           text := indentStr st.depth ++ m }]) := by
  unfold ctxLog; split
  · simp
  · rfl

@[simp] theorem enterCtx_depth (c : Ctx) (st : TraceState) :
    (enterCtx c st).depth = st.depth + 1 := rfl

@[simp] theorem enterCtx_callCount (c : Ctx) (st : TraceState) :
    (enterCtx c st).callCount = st.callCount := rfl

@[simp] theorem enterCtx_currentContext (c : Ctx) (st : TraceState) :
    (enterCtx c st).currentContext = some c := rfl

@[simp] theorem enterCtx_seqLog (c : Ctx) (st : TraceState) :
    (enterCtx c st).seqLog = st.seqLog := rfl

@[simp] theorem enterCtx_output (c : Ctx) (st : TraceState) :
    (enterCtx c st).output = st.output := rfl

@[simp] theorem exitCtx_depth (c : Ctx) (st : TraceState) :
    (exitCtx c st).depth = st.depth - 1 := rfl

@[simp] theorem exitCtx_callCount (c : Ctx) (st : TraceState) :
    (exitCtx c st).callCount = st.callCount := rfl

@[simp] theorem exitCtx_currentContext (c : Ctx) (st : TraceState) :
    (exitCtx c st).currentContext = c.parent := rfl

@[simp] theorem exitCtx_seqLog (c : Ctx) (st : TraceState) :
    (exitCtx c st).seqLog = st.seqLog := rfl

@[simp] theorem exitCtx_output (c : Ctx) (st : TraceState) :
    (exitCtx c st).output = st.output := rfl

@[simp] theorem with_call_snd_depth (me mo nm : String) (sd : Sender) (kw : Kwargs) (st : TraceState) :
    (with_call me mo nm sd kw st).2.depth = st.depth := rfl

@[simp] theorem with_call_snd_callCount (me mo nm : String) (sd : Sender) (kw : Kwargs) (st : TraceState) :
    (with_call me mo nm sd kw st).2.callCount = st.callCount + 1 := rfl

@[simp] theorem with_call_snd_currentContext (me mo nm : String) (sd : Sender) (kw : Kwargs) (st : TraceState) :
    (with_call me mo nm sd kw st).2.currentContext = st.currentContext := rfl

@[simp] theorem with_call_snd_seqLog (me mo nm : String) (sd : Sender) (kw : Kwargs) (st : TraceState) :
    (with_call me mo nm sd kw st).2.seqLog = st.seqLog ++ [st.callCount + 1] := rfl

@[simp] theorem with_call_snd_output (me mo nm : String) (sd : Sender) (kw : Kwargs) (st : TraceState) :
    (with_call me mo nm sd kw st).2.output = st.output := rfl

@[simp] theorem with_call_fst_number (me mo nm : String) (sd : Sender) (kw : Kwargs) (st : TraceState) :
    (with_call me mo nm sd kw st).1.number = st.callCount + 1 := rfl

@[simp] theorem with_call_fst_name (me mo nm : String) (sd : Sender) (kw : Kwargs) (st : TraceState) :
    (with_call me mo nm sd kw st).1.name = nm := rfl

@[simp] theorem log_call_depth (S : List String) (c : SigCall) (st : TraceState) :
    (log_call S c st).depth = st.depth := by
  unfold log_call; simp

@[simp] theorem log_call_callCount (S : List String) (c : SigCall) (st : TraceState) :
    (log_call S c st).callCount = st.callCount := by
  unfold log_call; simp

@[simp] theorem log_call_currentContext (S : List String) (c : SigCall) (st : TraceState) :
    (log_call S c st).currentContext = st.currentContext := by
  unfold log_call; simp

@[simp] theorem log_call_seqLog (S : List String) (c : SigCall) (st : TraceState) :
    (log_call S c st).seqLog = st.seqLog := by
  unfold log_call; simp

@[simp] theorem log_receive_depth (S : List String) (c : Ctx) (r : Rcv) (st : TraceState) :
    (log_receive S c r st).depth = st.depth := by
  unfold log_receive; simp

@[simp] theorem log_receive_callCount (S : List String) (c : Ctx) (r : Rcv) (st : TraceState) :
    (log_receive S c r st).callCount = st.callCount := by
  unfold log_receive; simp

@[simp] theorem log_receive_currentContext (S : List String) (c : Ctx) (r : Rcv) (st : TraceState) :
    (log_receive S c r st).currentContext = st.currentContext := by
  unfold log_receive; simp

@[simp] theorem log_receive_seqLog (S : List String) (c : Ctx) (r : Rcv) (st : TraceState) :
    (log_receive S c r st).seqLog = st.seqLog := by
  unfold log_receive; simp

@[simp] theorem Ctx_parent_mk (c : SigCall) (p : Option Ctx) : (Ctx.mk c p).parent = p := rfl

@[simp] theorem Ctx_call_mk (c : SigCall) (p : Option Ctx) : (Ctx.mk c p).call = c := rfl

theorem log_call_output (S : List String) (c : SigCall) (st : TraceState) :
    (log_call S c st).output = st.output ++
      (if c.name ∈ S then [] else
        [{ chan := c.name, number := c.number, depth := st.depth,
           text := indentStr st.depth ++ log_call_msg c }]) := by
  unfold log_call; exact ctxLog_output S c (log_call_msg c) st

theorem log_receive_output (S : List String) (ctx : Ctx) (r : Rcv) (st : TraceState) :
    (log_receive S ctx r st).output = st.output ++
      (if ctx.call.name ∈ S then [] else
        [{ chan := ctx.call.name, number := ctx.call.number, depth := st.depth,
           text := indentStr st.depth ++
             ("RECEIVING " ++ toString ctx.call.number ++ " " ++ ctx.call.name ++ ": "
               ++ get_receiver_name (resolve_receiver r)) }]) := by
  unfold log_receive
  exact ctxLog_output S ctx.call _ st

/-! ## Unfolding equations of the interpreter -/

theorem interp_succ (S : List String) (c n : Nat) :
    interp S c (n + 1) = buildStep S c (interp S c n) := rfl

theorem rcv_wrapped_none (S : List String) (c n m : Nat) (orig : Rcv) (st : TraceState)
    (h : st.currentContext = none) :
    (interp S c (n + 1)).rcv (.wrapped m orig) st = (.error .attrErr, st) := by
  show (buildStep S c (interp S c n)).rcv (.wrapped m orig) st = _
  simp only [buildStep, h]

theorem rcv_wrapped_some (S : List String) (c n m : Nat) (orig : Rcv) (st : TraceState)
    (ctx : Ctx) (h : st.currentContext = some ctx) :
    (interp S c (n + 1)).rcv (.wrapped m orig) st =
      (((interp S c n).rcv orig
          (enterCtx (Ctx.mk ctx.call (some ctx)) (log_receive S ctx orig st))).1,
       exitCtx (Ctx.mk ctx.call (some ctx))
         ((interp S c n).rcv orig
           (enterCtx (Ctx.mk ctx.call (some ctx)) (log_receive S ctx orig st))).2) := by
  show (buildStep S c (interp S c n)).rcv (.wrapped m orig) st = _
  simp only [buildStep, h]

theorem rcv_base (S : List String) (c n : Nat) (d : String) (body : List Act)
    (ret : Except Err Val) (st : TraceState) :
    (interp S c (n + 1)).rcv (.base d body ret) st =
      (match ((interp S c n).acts body st).1 with
       | .error e => (.error e, ((interp S c n).acts body st).2)
       | .ok _ => (ret, ((interp S c n).acts body st).2)) := rfl

theorem acts_nil (S : List String) (c n : Nat) (st : TraceState) :
    (interp S c (n + 1)).acts [] st = (.ok (), st) := rfl

theorem acts_cons (S : List String) (c n : Nat) (a : Act) (rest : List Act) (st : TraceState) :
    (interp S c (n + 1)).acts (a :: rest) st =
      (match ((interp S c n).act a st).1 with
       | .error e => (.error e, ((interp S c n).act a st).2)
       | .ok _ => (interp S c n).acts rest ((interp S c n).act a st).2) := rfl

/-- The state in which `send_wrapper` / `send_robust_wrapper` run the
original entry point: the call allocated, the header logged, the context
entered. -/
def sendInner (S : List String) (me mo nm : String) (sd : Sender) (kw : Kwargs)
    (st : TraceState) : TraceState :=
  enterCtx (Ctx.mk (with_call me mo nm sd kw st).1 st.currentContext)
    (log_call S (with_call me mo nm sd kw st).1 (with_call me mo nm sd kw st).2)

theorem act_send_plain (S : List String) (c n : Nat) (mo nm : String)
    (sd : Sender) (kw : Kwargs) (rs : List Rcv) (st : TraceState) :
    (interp S c (n + 1)).act (.sendAct false mo nm sd kw rs) st =
      (((interp S c n).plain (live_receivers_wrapper c rs)
          (sendInner S "SEND" mo nm sd kw st)).1,
       exitCtx (Ctx.mk (with_call "SEND" mo nm sd kw st).1 st.currentContext)
         ((interp S c n).plain (live_receivers_wrapper c rs)
           (sendInner S "SEND" mo nm sd kw st)).2) := rfl

theorem act_send_robust (S : List String) (c n : Nat) (mo nm : String)
    (sd : Sender) (kw : Kwargs) (rs : List Rcv) (st : TraceState) :
    (interp S c (n + 1)).act (.sendAct true mo nm sd kw rs) st =
      (Except.ok ((interp S c n).robust (live_receivers_wrapper c rs)
          (sendInner S "SEND_ROBUST" mo nm sd kw st)).1,
       exitCtx (Ctx.mk (with_call "SEND_ROBUST" mo nm sd kw st).1 st.currentContext)
         ((interp S c n).robust (live_receivers_wrapper c rs)
           (sendInner S "SEND_ROBUST" mo nm sd kw st)).2) := rfl

theorem sendInner_output (S : List String) (me mo nm : String) (sd : Sender) (kw : Kwargs)
    (st : TraceState) :
    (sendInner S me mo nm sd kw st).output = st.output ++
      (if nm ∈ S then [] else
        [{ chan := nm, number := st.callCount + 1, depth := st.depth,
           text := indentStr st.depth ++ log_call_msg (with_call me mo nm sd kw st).1 }]) := by
  unfold sendInner
  rw [enterCtx_output, log_call_output]
  rfl

@[simp] theorem sendInner_depth (S : List String) (me mo nm : String) (sd : Sender)
    (kw : Kwargs) (st : TraceState) :
    (sendInner S me mo nm sd kw st).depth = st.depth + 1 := by
  unfold sendInner; simp

@[simp] theorem sendInner_callCount (S : List String) (me mo nm : String) (sd : Sender)
    (kw : Kwargs) (st : TraceState) :
    (sendInner S me mo nm sd kw st).callCount = st.callCount + 1 := by
  unfold sendInner; simp

@[simp] theorem sendInner_currentContext (S : List String) (me mo nm : String) (sd : Sender)
    (kw : Kwargs) (st : TraceState) :
    (sendInner S me mo nm sd kw st).currentContext
      = some (Ctx.mk (with_call me mo nm sd kw st).1 st.currentContext) := by
  unfold sendInner; simp

@[simp] theorem sendInner_seqLog (S : List String) (me mo nm : String) (sd : Sender)
    (kw : Kwargs) (st : TraceState) :
    (sendInner S me mo nm sd kw st).seqLog = st.seqLog ++ [st.callCount + 1] := by
  unfold sendInner; simp

theorem plain_nil (S : List String) (c n : Nat) (st : TraceState) :
    (interp S c (n + 1)).plain [] st = (.ok [], st) := rfl

theorem plain_cons (S : List String) (c n : Nat) (r : Rcv) (rest : List Rcv) (st : TraceState) :
    (interp S c (n + 1)).plain (r :: rest) st =
      (match ((interp S c n).rcv r st).1 with
       | .error e => (.error e, ((interp S c n).rcv r st).2)
       | .ok v =>
         match ((interp S c n).plain rest ((interp S c n).rcv r st).2).1 with
         | .error e => (.error e, ((interp S c n).plain rest ((interp S c n).rcv r st).2).2)
         | .ok l => (.ok ((get_receiver_name r, Except.ok v) :: l),
             ((interp S c n).plain rest ((interp S c n).rcv r st).2).2)) := rfl

theorem robust_nil (S : List String) (c n : Nat) (st : TraceState) :
    (interp S c (n + 1)).robust [] st = ([], st) := rfl

theorem robust_cons (S : List String) (c n : Nat) (r : Rcv) (rest : List Rcv) (st : TraceState) :
    (interp S c (n + 1)).robust (r :: rest) st =
      ((get_receiver_name r, ((interp S c n).rcv r st).1) ::
         ((interp S c n).robust rest ((interp S c n).rcv r st).2).1,
       ((interp S c n).robust rest ((interp S c n).rcv r st).2).2) := rfl

/-! ## Output is append-only -/

/-- Every evaluator only appends to the output; nothing already emitted is
altered or dropped. -/
theorem interp_output_extend (S : List String) (c : Nat) : ∀ n : Nat,
    (∀ r st, ∃ t, ((interp S c n).rcv r st).2.output = st.output ++ t)
    ∧ (∀ as st, ∃ t, ((interp S c n).acts as st).2.output = st.output ++ t)
    ∧ (∀ a st, ∃ t, ((interp S c n).act a st).2.output = st.output ++ t)
    ∧ (∀ rs st, ∃ t, ((interp S c n).plain rs st).2.output = st.output ++ t)
    ∧ (∀ rs st, ∃ t, ((interp S c n).robust rs st).2.output = st.output ++ t) := by
  intro n
  induction n with
  | zero =>
    refine ⟨fun r st => ⟨[], ?_⟩, fun as st => ⟨[], ?_⟩, fun a st => ⟨[], ?_⟩,
      fun rs st => ⟨[], ?_⟩, fun rs st => ⟨[], ?_⟩⟩ <;> simp [interp, interpZero]
  | succ n ih =>
    obtain ⟨ihR, ihAs, ihA, ihP, ihRb⟩ := ih
    refine ⟨?_, ?_, ?_, ?_, ?_⟩
    · -- rcv
      intro r st
      cases r with
      | wrapped m orig =>
        cases hcc : st.currentContext with
        | none => exact ⟨[], by rw [rcv_wrapped_none S c n m orig st hcc]; simp⟩
        | some ctx =>
          obtain ⟨t1, h1⟩ := ihR orig
            (enterCtx (Ctx.mk ctx.call (some ctx)) (log_receive S ctx orig st))
          refine ⟨(if ctx.call.name ∈ S then [] else
            [{ chan := ctx.call.name, number := ctx.call.number, depth := st.depth,
               text := indentStr st.depth ++
                 ("RECEIVING " ++ toString ctx.call.number ++ " " ++ ctx.call.name ++ ": "
                   ++ get_receiver_name (resolve_receiver orig)) }]) ++ t1, ?_⟩
          rw [rcv_wrapped_some S c n m orig st ctx hcc]
          simp only [exitCtx_output]
          rw [h1]
          simp [log_receive_output, List.append_assoc]
      | base d body ret =>
        obtain ⟨t1, h1⟩ := ihAs body st
        refine ⟨t1, ?_⟩
        rw [rcv_base]
        cases hres : ((interp S c n).acts body st).1 <;> simpa [hres] using h1
    · -- acts
      intro as st
      cases as with
      | nil => exact ⟨[], by rw [acts_nil]; simp⟩
      | cons a rest =>
        obtain ⟨t1, h1⟩ := ihA a st
        rw [acts_cons]
        cases hres : ((interp S c n).act a st).1 with
        | error e => exact ⟨t1, by simpa using h1⟩
        | ok u =>
          obtain ⟨t2, h2⟩ := ihAs rest ((interp S c n).act a st).2
          exact ⟨t1 ++ t2, by rw [h2, h1, List.append_assoc]⟩
    · -- act
      intro a st
      cases a with
      | sendAct robust mo nm sd kw rs =>
        cases robust with
        | true =>
          obtain ⟨t1, h1⟩ := ihRb (live_receivers_wrapper c rs)
            (sendInner S "SEND_ROBUST" mo nm sd kw st)
          refine ⟨(if nm ∈ S then [] else
            [{ chan := nm, number := st.callCount + 1, depth := st.depth,
               text := indentStr st.depth
                 ++ log_call_msg (with_call "SEND_ROBUST" mo nm sd kw st).1 }]) ++ t1, ?_⟩
          rw [act_send_robust]
          simp only [exitCtx_output]
          rw [h1, sendInner_output, List.append_assoc]
        | false =>
          obtain ⟨t1, h1⟩ := ihP (live_receivers_wrapper c rs)
            (sendInner S "SEND" mo nm sd kw st)
          refine ⟨(if nm ∈ S then [] else
            [{ chan := nm, number := st.callCount + 1, depth := st.depth,
               text := indentStr st.depth
                 ++ log_call_msg (with_call "SEND" mo nm sd kw st).1 }]) ++ t1, ?_⟩
          rw [act_send_plain]
          simp only [exitCtx_output]
          rw [h1, sendInner_output, List.append_assoc]
    · -- plain
      intro rs st
      cases rs with
      | nil => exact ⟨[], by rw [plain_nil]; simp⟩
      | cons r rest =>
        obtain ⟨t1, h1⟩ := ihR r st
        rw [plain_cons]
        cases hres : ((interp S c n).rcv r st).1 with
        | error e => exact ⟨t1, by simpa using h1⟩
        | ok v =>
          obtain ⟨t2, h2⟩ := ihP rest ((interp S c n).rcv r st).2
          cases hres2 : ((interp S c n).plain rest ((interp S c n).rcv r st).2).1 <;>
            exact ⟨t1 ++ t2, by rw [h2, h1, List.append_assoc]⟩
    · -- robust
      intro rs st
      cases rs with
      | nil => exact ⟨[], by rw [robust_nil]; simp⟩
      | cons r rest =>
        obtain ⟨t1, h1⟩ := ihR r st
        obtain ⟨t2, h2⟩ := ihRb rest ((interp S c n).rcv r st).2
        exact ⟨t1 ++ t2, by rw [robust_cons]; simp only []; rw [h2, h1, List.append_assoc]⟩

/-! ## Stack discipline: depth and the current context are restored -/

/-- Every evaluator leaves `Context.depth` and `Context.current_context`
exactly as it found them — the matching `__exit__` runs on every path,
normal or exceptional. -/
theorem interp_state_restore (S : List String) (c : Nat) : ∀ n : Nat,
    (∀ r st, ((interp S c n).rcv r st).2.depth = st.depth
      ∧ ((interp S c n).rcv r st).2.currentContext = st.currentContext)
    ∧ (∀ as st, ((interp S c n).acts as st).2.depth = st.depth
      ∧ ((interp S c n).acts as st).2.currentContext = st.currentContext)
    ∧ (∀ a st, ((interp S c n).act a st).2.depth = st.depth
      ∧ ((interp S c n).act a st).2.currentContext = st.currentContext)
    ∧ (∀ rs st, ((interp S c n).plain rs st).2.depth = st.depth
      ∧ ((interp S c n).plain rs st).2.currentContext = st.currentContext)
    ∧ (∀ rs st, ((interp S c n).robust rs st).2.depth = st.depth
      ∧ ((interp S c n).robust rs st).2.currentContext = st.currentContext) := by
  intro n
  induction n with
  | zero =>
    exact ⟨fun r st => ⟨rfl, rfl⟩, fun as st => ⟨rfl, rfl⟩, fun a st => ⟨rfl, rfl⟩,
      fun rs st => ⟨rfl, rfl⟩, fun rs st => ⟨rfl, rfl⟩⟩
  | succ n ih =>
    obtain ⟨ihR, ihAs, ihA, ihP, ihRb⟩ := ih
    refine ⟨?_, ?_, ?_, ?_, ?_⟩
    · intro r st
      cases r with
      | wrapped m orig =>
        cases hcc : st.currentContext with
        | none => rw [rcv_wrapped_none S c n m orig st hcc]; exact ⟨rfl, hcc⟩
        | some ctx =>
          rw [rcv_wrapped_some S c n m orig st ctx hcc]
          have h := ihR orig
            (enterCtx (Ctx.mk ctx.call (some ctx)) (log_receive S ctx orig st))
          constructor
          · simp only [exitCtx_depth, h.1, enterCtx_depth, log_receive_depth]; omega
          · simp only [exitCtx_currentContext, Ctx_parent_mk, hcc]
      | base d body ret =>
        rw [rcv_base]
        have h := ihAs body st
        cases hres : ((interp S c n).acts body st).1 <;> simpa [hres] using h
    · intro as st
      cases as with
      | nil => rw [acts_nil]; exact ⟨rfl, rfl⟩
      | cons a rest =>
        rw [acts_cons]
        have h1 := ihA a st
        cases hres : ((interp S c n).act a st).1 with
        | error e => simpa using h1
        | ok u =>
          have h2 := ihAs rest ((interp S c n).act a st).2
          exact ⟨h2.1.trans h1.1, h2.2.trans h1.2⟩
    · intro a st
      cases a with
      | sendAct robust mo nm sd kw rs =>
        cases robust with
        | true =>
          rw [act_send_robust]
          have h := ihRb (live_receivers_wrapper c rs) (sendInner S "SEND_ROBUST" mo nm sd kw st)
          constructor
          · simp only [exitCtx_depth, h.1, sendInner_depth]; omega
          · simp only [exitCtx_currentContext, Ctx_parent_mk]
        | false =>
          rw [act_send_plain]
          have h := ihP (live_receivers_wrapper c rs) (sendInner S "SEND" mo nm sd kw st)
          constructor
          · simp only [exitCtx_depth, h.1, sendInner_depth]; omega
          · simp only [exitCtx_currentContext, Ctx_parent_mk]
    · intro rs st
      cases rs with
      | nil => rw [plain_nil]; exact ⟨rfl, rfl⟩
      | cons r rest =>
        rw [plain_cons]
        have h1 := ihR r st
        cases hres : ((interp S c n).rcv r st).1 with
        | error e => simpa using h1
        | ok v =>
          have h2 := ihP rest ((interp S c n).rcv r st).2
          cases hres2 : ((interp S c n).plain rest ((interp S c n).rcv r st).2).1 <;>
            exact ⟨h2.1.trans h1.1, h2.2.trans h1.2⟩
    · intro rs st
      cases rs with
      | nil => rw [robust_nil]; exact ⟨rfl, rfl⟩
      | cons r rest =>
        rw [robust_cons]
        have h1 := ihR r st
        have h2 := ihRb rest ((interp S c n).rcv r st).2
        exact ⟨h2.1.trans h1.1, h2.2.trans h1.2⟩

/-! ## Sequence numbers are allocated consecutively -/

theorem range1_comp (a b c : Nat) (hab : a ≤ b) (hbc : b ≤ c) :
    List.range' (a + 1) (b - a) ++ List.range' (b + 1) (c - b) = List.range' (a + 1) (c - a) := by
  have h := List.range'_append (a + 1) (b - a) (c - b) 1
  have h1 : (a + 1) + 1 * (b - a) = b + 1 := by omega
  have h2 : (c - b) + (b - a) = c - a := by omega
  rw [h1] at h
  rw [← h2]
  exact h

theorem range1_cons_comp (a x : Nat) (h : a + 1 ≤ x) :
    List.range' (a + 1) 1 ++ List.range' (a + 1 + 1) (x - (a + 1)) = List.range' (a + 1) (x - a) := by
  have hc := List.range'_append (a + 1) 1 (x - (a + 1)) 1
  have h1 : (a + 1) + 1 * 1 = a + 1 + 1 := by omega
  have h2 : (x - (a + 1)) + 1 = x - a := by omega
  rw [h1, h2] at hc
  exact hc

/-- Every evaluator grows `call_count` monotonically, and the ghost `seqLog`
records exactly the consecutive integers from the old count + 1 up to the
new count, in allocation order. -/
theorem interp_seq (S : List String) (c : Nat) : ∀ n : Nat,
    (∀ r st, st.callCount ≤ ((interp S c n).rcv r st).2.callCount
      ∧ ((interp S c n).rcv r st).2.seqLog = st.seqLog ++
          List.range' (st.callCount + 1) (((interp S c n).rcv r st).2.callCount - st.callCount))
    ∧ (∀ as st, st.callCount ≤ ((interp S c n).acts as st).2.callCount
      ∧ ((interp S c n).acts as st).2.seqLog = st.seqLog ++
          List.range' (st.callCount + 1) (((interp S c n).acts as st).2.callCount - st.callCount))
    ∧ (∀ a st, st.callCount ≤ ((interp S c n).act a st).2.callCount
      ∧ ((interp S c n).act a st).2.seqLog = st.seqLog ++
          List.range' (st.callCount + 1) (((interp S c n).act a st).2.callCount - st.callCount))
    ∧ (∀ rs st, st.callCount ≤ ((interp S c n).plain rs st).2.callCount
      ∧ ((interp S c n).plain rs st).2.seqLog = st.seqLog ++
          List.range' (st.callCount + 1) (((interp S c n).plain rs st).2.callCount - st.callCount))
    ∧ (∀ rs st, st.callCount ≤ ((interp S c n).robust rs st).2.callCount
      ∧ ((interp S c n).robust rs st).2.seqLog = st.seqLog ++
          List.range' (st.callCount + 1) (((interp S c n).robust rs st).2.callCount - st.callCount)) := by
  intro n
  induction n with
  | zero =>
    refine ⟨fun r st => ⟨le_rfl, ?_⟩, fun as st => ⟨le_rfl, ?_⟩, fun a st => ⟨le_rfl, ?_⟩,
      fun rs st => ⟨le_rfl, ?_⟩, fun rs st => ⟨le_rfl, ?_⟩⟩ <;> simp [interp, interpZero]
  | succ n ih =>
    obtain ⟨ihR, ihAs, ihA, ihP, ihRb⟩ := ih
    refine ⟨?_, ?_, ?_, ?_, ?_⟩
    · intro r st
      cases r with
      | wrapped m orig =>
        cases hcc : st.currentContext with
        | none => rw [rcv_wrapped_none S c n m orig st hcc]; simp
        | some ctx =>
          rw [rcv_wrapped_some S c n m orig st ctx hcc]
          have h := ihR orig
            (enterCtx (Ctx.mk ctx.call (some ctx)) (log_receive S ctx orig st))
          constructor
          · simpa using h.1
          · simpa using h.2
      | base d body ret =>
        rw [rcv_base]
        have h := ihAs body st
        cases hres : ((interp S c n).acts body st).1 <;> simpa [hres] using h
    · intro as st
      cases as with
      | nil => rw [acts_nil]; simp
      | cons a rest =>
        rw [acts_cons]
        have h1 := ihA a st
        cases hres : ((interp S c n).act a st).1 with
        | error e => simpa using h1
        | ok u =>
          have h2 := ihAs rest ((interp S c n).act a st).2
          refine ⟨h1.1.trans h2.1, ?_⟩
          rw [h2.2, h1.2, List.append_assoc,
            range1_comp st.callCount ((interp S c n).act a st).2.callCount _ h1.1 h2.1]
    · intro a st
      cases a with
      | sendAct robust mo nm sd kw rs =>
        cases robust with
        | true =>
          rw [act_send_robust]
          have h := ihRb (live_receivers_wrapper c rs) (sendInner S "SEND_ROBUST" mo nm sd kw st)
          have hmono : st.callCount ≤
              ((interp S c n).robust (live_receivers_wrapper c rs)
                (sendInner S "SEND_ROBUST" mo nm sd kw st)).2.callCount := by
            have := h.1
            simp only [sendInner_callCount] at this
            omega
          refine ⟨by simpa using hmono, ?_⟩
          have h2 := h.2
          simp only [sendInner_callCount, sendInner_seqLog, exitCtx_seqLog, exitCtx_callCount] at h2 ⊢
          rw [h2, List.append_assoc]
          congr 1
          have hone : ([st.callCount + 1] : List Nat) = List.range' (st.callCount + 1) 1 := by simp
          rw [hone, range1_cons_comp st.callCount _ (by simpa using h.1)]
        | false =>
          rw [act_send_plain]
          have h := ihP (live_receivers_wrapper c rs) (sendInner S "SEND" mo nm sd kw st)
          have hmono : st.callCount ≤
              ((interp S c n).plain (live_receivers_wrapper c rs)
                (sendInner S "SEND" mo nm sd kw st)).2.callCount := by
            have := h.1
            simp only [sendInner_callCount] at this
            omega
          refine ⟨by simpa using hmono, ?_⟩
          have h2 := h.2
          simp only [sendInner_callCount, sendInner_seqLog, exitCtx_seqLog, exitCtx_callCount] at h2 ⊢
          rw [h2, List.append_assoc]
          congr 1
          have hone : ([st.callCount + 1] : List Nat) = List.range' (st.callCount + 1) 1 := by simp
          rw [hone, range1_cons_comp st.callCount _ (by simpa using h.1)]
    · intro rs st
      cases rs with
      | nil => rw [plain_nil]; simp
      | cons r rest =>
        rw [plain_cons]
        have h1 := ihR r st
        cases hres : ((interp S c n).rcv r st).1 with
        | error e => simpa using h1
        | ok v =>
          have h2 := ihP rest ((interp S c n).rcv r st).2
          cases hres2 : ((interp S c n).plain rest ((interp S c n).rcv r st).2).1 <;>
          · refine ⟨h1.1.trans h2.1, ?_⟩
            rw [h2.2, h1.2, List.append_assoc,
              range1_comp st.callCount ((interp S c n).rcv r st).2.callCount _ h1.1 h2.1]
    · intro rs st
      cases rs with
      | nil => rw [robust_nil]; simp
      | cons r rest =>
        rw [robust_cons]
        have h1 := ihR r st
        have h2 := ihRb rest ((interp S c n).rcv r st).2
        refine ⟨h1.1.trans h2.1, ?_⟩
        rw [h2.2, h1.2, List.append_assoc,
          range1_comp st.callCount ((interp S c n).rcv r st).2.callCount _ h1.1 h2.1]

/-! ## Suppression only filters output -/

/-- Agreement of two trace states on everything except the emitted output. -/
def StOk (st st2 : TraceState) : Prop :=
  st.depth = st2.depth ∧ st.callCount = st2.callCount
    ∧ st.currentContext = st2.currentContext ∧ st.seqLog = st2.seqLog

theorem StOk.refl (st : TraceState) : StOk st st := ⟨rfl, rfl, rfl, rfl⟩

theorem StOk_ctxLog (S T : List String) (call : SigCall) (m1 m2 : String)
    {st st2 : TraceState} (h : StOk st st2) :
    StOk (ctxLog S call m1 st) (ctxLog T call m2 st2) := by
  obtain ⟨h1, h2, h3, h4⟩ := h
  exact ⟨by simp [h1], by simp [h2], by simp [h3], by simp [h4]⟩

theorem StOk_enterCtx (c : Ctx) {st st2 : TraceState} (h : StOk st st2) :
    StOk (enterCtx c st) (enterCtx c st2) := by
  obtain ⟨h1, h2, h3, h4⟩ := h
  exact ⟨by simp [h1], by simp [h2], rfl, by simp [h4]⟩

theorem StOk_exitCtx (c : Ctx) {st st2 : TraceState} (h : StOk st st2) :
    StOk (exitCtx c st) (exitCtx c st2) := by
  obtain ⟨h1, h2, h3, h4⟩ := h
  exact ⟨by simp [h1], by simp [h2], rfl, by simp [h4]⟩

theorem with_call_fst_eq (me mo nm : String) (sd : Sender) (kw : Kwargs)
    {st st2 : TraceState} (h : st.callCount = st2.callCount) :
    (with_call me mo nm sd kw st).1 = (with_call me mo nm sd kw st2).1 := by
  simp [with_call, h]

theorem StOk_sendInner (S T : List String) (me mo nm : String) (sd : Sender) (kw : Kwargs)
    {st st2 : TraceState} (h : StOk st st2) :
    StOk (sendInner S me mo nm sd kw st) (sendInner T me mo nm sd kw st2) := by
  obtain ⟨h1, h2, h3, h4⟩ := h
  refine ⟨by simp [h1], by simp [h2], ?_, by simp [h2, h4]⟩
  simp only [sendInner_currentContext]
  rw [with_call_fst_eq me mo nm sd kw h2, h3]

/-- Control flow, results and every state component except the output are
independent of the suppress set: suppression filters log lines and changes
nothing else.  (`with_call` builds the call from `callCount`, which two
`StOk`-related states share, so both runs build identical calls and
contexts.) -/
theorem interp_suppress_agnostic (S T : List String) (c : Nat) : ∀ n : Nat,
    (∀ r st st2, StOk st st2 →
      ((interp S c n).rcv r st).1 = ((interp T c n).rcv r st2).1
      ∧ StOk ((interp S c n).rcv r st).2 ((interp T c n).rcv r st2).2)
    ∧ (∀ as st st2, StOk st st2 →
      ((interp S c n).acts as st).1 = ((interp T c n).acts as st2).1
      ∧ StOk ((interp S c n).acts as st).2 ((interp T c n).acts as st2).2)
    ∧ (∀ a st st2, StOk st st2 →
      ((interp S c n).act a st).1 = ((interp T c n).act a st2).1
      ∧ StOk ((interp S c n).act a st).2 ((interp T c n).act a st2).2)
    ∧ (∀ rs st st2, StOk st st2 →
      ((interp S c n).plain rs st).1 = ((interp T c n).plain rs st2).1
      ∧ StOk ((interp S c n).plain rs st).2 ((interp T c n).plain rs st2).2)
    ∧ (∀ rs st st2, StOk st st2 →
      ((interp S c n).robust rs st).1 = ((interp T c n).robust rs st2).1
      ∧ StOk ((interp S c n).robust rs st).2 ((interp T c n).robust rs st2).2) := by
  intro n
  induction n with
  | zero => exact ⟨fun r st st2 h => ⟨rfl, h⟩, fun as st st2 h => ⟨rfl, h⟩,
      fun a st st2 h => ⟨rfl, h⟩, fun rs st st2 h => ⟨rfl, h⟩, fun rs st st2 h => ⟨rfl, h⟩⟩
  | succ n ih =>
    obtain ⟨ihR, ihAs, ihA, ihP, ihRb⟩ := ih
    refine ⟨?_, ?_, ?_, ?_, ?_⟩
    · intro r st st2 h
      cases r with
      | wrapped m orig =>
        cases hcc : st.currentContext with
        | none =>
          have hcc2 : st2.currentContext = none := h.2.2.1 ▸ hcc
          rw [rcv_wrapped_none S c n m orig st hcc, rcv_wrapped_none T c n m orig st2 hcc2]
          exact ⟨rfl, h⟩
        | some ctx =>
          have hcc2 : st2.currentContext = some ctx := h.2.2.1 ▸ hcc
          rw [rcv_wrapped_some S c n m orig st ctx hcc, rcv_wrapped_some T c n m orig st2 ctx hcc2]
          have hlog : StOk (log_receive S ctx orig st) (log_receive T ctx orig st2) :=
            StOk_ctxLog S T ctx.call _ _ h
          have hin := StOk_enterCtx (Ctx.mk ctx.call (some ctx)) hlog
          have hrec := ihR orig _ _ hin
          exact ⟨hrec.1, StOk_exitCtx _ hrec.2⟩
      | base d body ret =>
        rw [rcv_base, rcv_base]
        have hb := ihAs body st st2 h
        rw [hb.1]
        cases hres : ((interp T c n).acts body st2).1 <;> exact ⟨rfl, hb.2⟩
    · intro as st st2 h
      cases as with
      | nil => rw [acts_nil, acts_nil]; exact ⟨rfl, h⟩
      | cons a rest =>
        rw [acts_cons, acts_cons]
        have h1 := ihA a st st2 h
        rw [h1.1]
        cases hres : ((interp T c n).act a st2).1 with
        | error e => exact ⟨rfl, h1.2⟩
        | ok u => exact ihAs rest _ _ h1.2
    · intro a st st2 h
      cases a with
      | sendAct robust mo nm sd kw rs =>
        cases robust with
        | true =>
          rw [act_send_robust, act_send_robust]
          have hin := StOk_sendInner S T "SEND_ROBUST" mo nm sd kw h
          have hrb := ihRb (live_receivers_wrapper c rs) _ _ hin
          refine ⟨by rw [hrb.1], ?_⟩
          have hctxeq : Ctx.mk (with_call "SEND_ROBUST" mo nm sd kw st).1 st.currentContext
              = Ctx.mk (with_call "SEND_ROBUST" mo nm sd kw st2).1 st2.currentContext := by
            rw [with_call_fst_eq _ _ _ _ _ h.2.1, h.2.2.1]
          rw [hctxeq]
          exact StOk_exitCtx _ hrb.2
        | false =>
          rw [act_send_plain, act_send_plain]
          have hin := StOk_sendInner S T "SEND" mo nm sd kw h
          have hp := ihP (live_receivers_wrapper c rs) _ _ hin
          refine ⟨hp.1, ?_⟩
          have hctxeq : Ctx.mk (with_call "SEND" mo nm sd kw st).1 st.currentContext
              = Ctx.mk (with_call "SEND" mo nm sd kw st2).1 st2.currentContext := by
            rw [with_call_fst_eq _ _ _ _ _ h.2.1, h.2.2.1]
          rw [hctxeq]
          exact StOk_exitCtx _ hp.2
    · intro rs st st2 h
      cases rs with
      | nil => rw [plain_nil, plain_nil]; exact ⟨rfl, h⟩
      | cons r rest =>
        rw [plain_cons, plain_cons]
        have h1 := ihR r st st2 h
        rw [h1.1]
        cases hres : ((interp T c n).rcv r st2).1 with
        | error e => exact ⟨rfl, h1.2⟩
        | ok v =>
          have h2 := ihP rest _ _ h1.2
          rw [h2.1]
          cases hres2 : ((interp T c n).plain rest ((interp T c n).rcv r st2).2).1 <;>
            exact ⟨rfl, h2.2⟩
    · intro rs st st2 h
      cases rs with
      | nil => rw [robust_nil, robust_nil]; exact ⟨rfl, h⟩
      | cons r rest =>
        rw [robust_cons, robust_cons]
        have h1 := ihR r st st2 h
        have h2 := ihRb rest _ _ h1.2
        exact ⟨by rw [h1.1, h2.1], h2.2⟩

/-- Any line present after a run either was present before it or belongs to a
channel that is not suppressed: no evaluator ever emits a line for a
suppressed channel. -/
theorem interp_suppressed_silent (S : List String) (c : Nat) : ∀ n : Nat,
    (∀ r st l, l ∈ ((interp S c n).rcv r st).2.output → l ∈ st.output ∨ l.chan ∉ S)
    ∧ (∀ as st l, l ∈ ((interp S c n).acts as st).2.output → l ∈ st.output ∨ l.chan ∉ S)
    ∧ (∀ a st l, l ∈ ((interp S c n).act a st).2.output → l ∈ st.output ∨ l.chan ∉ S)
    ∧ (∀ rs st l, l ∈ ((interp S c n).plain rs st).2.output → l ∈ st.output ∨ l.chan ∉ S)
    ∧ (∀ rs st l, l ∈ ((interp S c n).robust rs st).2.output → l ∈ st.output ∨ l.chan ∉ S) := by
  have hlog : ∀ (call : SigCall) (m : String) (st : TraceState) (l : LogLine),
      l ∈ (ctxLog S call m st).output → l ∈ st.output ∨ l.chan ∉ S := by
    intro call m st l hl
    rw [ctxLog_output] at hl
    rcases List.mem_append.1 hl with hpre | hnew
    · exact Or.inl hpre
    · split at hnew
      · simp at hnew
      · rename_i hns
        rcases List.mem_singleton.1 hnew with rfl
        exact Or.inr hns
  intro n
  induction n with
  | zero => exact ⟨fun r st l hl => Or.inl hl, fun as st l hl => Or.inl hl,
      fun a st l hl => Or.inl hl, fun rs st l hl => Or.inl hl, fun rs st l hl => Or.inl hl⟩
  | succ n ih =>
    obtain ⟨ihR, ihAs, ihA, ihP, ihRb⟩ := ih
    refine ⟨?_, ?_, ?_, ?_, ?_⟩
    · intro r st l hl
      cases r with
      | wrapped m orig =>
        cases hcc : st.currentContext with
        | none => rw [rcv_wrapped_none S c n m orig st hcc] at hl; exact Or.inl hl
        | some ctx =>
          rw [rcv_wrapped_some S c n m orig st ctx hcc] at hl
          simp only [exitCtx_output] at hl
          rcases ihR orig _ l hl with hin | hout
          · simp only [enterCtx_output] at hin
            exact hlog ctx.call _ st l hin
          · exact Or.inr hout
      | base d body ret =>
        rw [rcv_base] at hl
        have hb := ihAs body st l
        cases hres : ((interp S c n).acts body st).1 <;> rw [hres] at hl <;> exact hb hl
    · intro as st l hl
      cases as with
      | nil => rw [acts_nil] at hl; exact Or.inl hl
      | cons a rest =>
        rw [acts_cons] at hl
        cases hres : ((interp S c n).act a st).1 with
        | error e => rw [hres] at hl; exact ihA a st l hl
        | ok u =>
          rw [hres] at hl
          rcases ihAs rest _ l hl with hmid | hout
          · exact ihA a st l hmid
          · exact Or.inr hout
    · intro a st l hl
      cases a with
      | sendAct robust mo nm sd kw rs =>
        cases robust with
        | true =>
          rw [act_send_robust] at hl
          simp only [exitCtx_output] at hl
          rcases ihRb (live_receivers_wrapper c rs) _ l hl with hin | hout
          · unfold sendInner at hin
            simp only [enterCtx_output] at hin
            rcases hlog _ _ _ l hin with hpre | hns
            · simp only [with_call_snd_output] at hpre; exact Or.inl hpre
            · exact Or.inr hns
          · exact Or.inr hout
        | false =>
          rw [act_send_plain] at hl
          simp only [exitCtx_output] at hl
          rcases ihP (live_receivers_wrapper c rs) _ l hl with hin | hout
          · unfold sendInner at hin
            simp only [enterCtx_output] at hin
            rcases hlog _ _ _ l hin with hpre | hns
            · simp only [with_call_snd_output] at hpre; exact Or.inl hpre
            · exact Or.inr hns
          · exact Or.inr hout
    · intro rs st l hl
      cases rs with
      | nil => rw [plain_nil] at hl; exact Or.inl hl
      | cons r rest =>
        rw [plain_cons] at hl
        cases hres : ((interp S c n).rcv r st).1 with
        | error e => rw [hres] at hl; exact ihR r st l hl
        | ok v =>
          rw [hres] at hl
          cases hres2 : ((interp S c n).plain rest ((interp S c n).rcv r st).2).1 <;>
            rw [hres2] at hl <;>
          · rcases ihP rest _ l hl with hmid | hout
            · exact ihR r st l hmid
            · exact Or.inr hout
    · intro rs st l hl
      cases rs with
      | nil => rw [robust_nil] at hl; exact Or.inl hl
      | cons r rest =>
        rw [robust_cons] at hl
        rcases ihRb rest _ l hl with hmid | hout
        · exact ihR r st l hmid
        · exact Or.inr hout

/-! ## Idempotence of `patch_receiver` -/

theorem patch_receiver_idem (s : Nat) (r : Rcv) :
    patch_receiver s (patch_receiver s r) = patch_receiver s r := by
  cases r with
  | base d b ret => simp [patch_receiver]
  | wrapped m orig =>
    by_cases h : m = s <;> simp [patch_receiver, h]

theorem patch_receiver_iterate (s : Nat) : ∀ (K : Nat) (r : Rcv),
    (patch_receiver s)^[K + 1] r = patch_receiver s r := by
  intro K
  induction K with
  | zero => intro r; rfl
  | succ K ih =>
    intro r
    rw [Function.iterate_succ_apply, ih (patch_receiver s r), patch_receiver_idem]

/-- The two match branches of a `base` receiver share their final state. -/
theorem rcv_base_snd (S : List String) (c n : Nat) (d : String) (body : List Act)
    (ret : Except Err Val) (st : TraceState) :
    ((interp S c (n + 1)).rcv (.base d body ret) st).2 = ((interp S c n).acts body st).2 := by
  rw [rcv_base]
  cases hres : ((interp S c n).acts body st).1 <;> simp [hres]

/-- Shared concrete fixtures for the witnesses: an enclosing dispatch context
with sequence number 1, current in a state with one allocated call. -/
def wCall : SigCall :=
  { number := 1, method := "SEND", module := "", name := "sig",
    sender := .obj "s", kwargs := { instanceVal := none } }

def wCtx : Ctx := Ctx.mk wCall none

def wSt : TraceState :=
  { depth := 1, callCount := 1, currentContext := some wCtx, output := [], seqLog := [1] }

/-! ## The claims -/

/-- Claim C10: invoking a `receiver_wrapper` while `Context.current_context`
is `None` (e.g. a wrapper surviving in `sender_receivers_cache`, called
outside any instrumented send) raises `AttributeError` before the original
receiver runs: the call returns the error with the trace state untouched, so
the original receiver contributed nothing.  Every wrapper invocation
implicitly requires an active enclosing dispatch context. -/
theorem claim_C10 (S : List String) (c n m : Nat) (orig : Rcv) (st : TraceState)
    (h : st.currentContext = none) :
    (interp S c (n + 1)).rcv (.wrapped m orig) st = (Except.error Err.attrErr, st) :=
  rcv_wrapped_none S c n m orig st h

/-- Witness for C10 at a concrete input: the fresh state has no current
context, and invoking a wrapped receiver there yields the `AttributeError`
with the state unchanged. -/
theorem claim_C10_witness :
    initState.currentContext = none
    ∧ (interp [] 0 3).rcv (.wrapped 0 (.base "h" [] (.ok 0))) initState
        = (Except.error Err.attrErr, initState) :=
  ⟨rfl, claim_C10 [] 0 2 0 (.base "h" [] (.ok 0)) initState rfl⟩

/-- Claim C1: the wrappers are exception-transparent and restore the trace
state.  The wrapped receiver returns exactly what the original receiver
returns in the state the wrapper set up — `Except.error` included, nothing
caught, altered or suppressed — and `Context.depth` and
`Context.current_context` are back to their pre-invocation values on every
exit, the exceptional one included.  Likewise the wrapped send and
fault-tolerant send return exactly what the original entry point returns on
the entered state, and restore depth and current context on every exit. -/
theorem claim_C1 (S : List String) (c n m : Nat) (orig : Rcv) (st : TraceState) (ctx : Ctx)
    (h : st.currentContext = some ctx)
    (robust : Bool) (mo nm : String) (sd : Sender) (kw : Kwargs) (rs : List Rcv) :
    ((interp S c (n + 1)).rcv (.wrapped m orig) st).1
      = ((interp S c n).rcv orig
          (enterCtx (Ctx.mk ctx.call (some ctx)) (log_receive S ctx orig st))).1
    ∧ ((interp S c (n + 1)).rcv (.wrapped m orig) st).2.depth = st.depth
    ∧ ((interp S c (n + 1)).rcv (.wrapped m orig) st).2.currentContext = st.currentContext
    ∧ ((interp S c (n + 1)).act (.sendAct robust mo nm sd kw rs) st).1
      = (if robust then
          Except.ok ((interp S c n).robust (live_receivers_wrapper c rs)
            (sendInner S "SEND_ROBUST" mo nm sd kw st)).1
         else
          ((interp S c n).plain (live_receivers_wrapper c rs)
            (sendInner S "SEND" mo nm sd kw st)).1)
    ∧ ((interp S c (n + 1)).act (.sendAct robust mo nm sd kw rs) st).2.depth = st.depth
    ∧ ((interp S c (n + 1)).act (.sendAct robust mo nm sd kw rs) st).2.currentContext
        = st.currentContext := by
  refine ⟨?_, ((interp_state_restore S c (n + 1)).1 (.wrapped m orig) st).1,
    ((interp_state_restore S c (n + 1)).1 (.wrapped m orig) st).2, ?_,
    ((interp_state_restore S c (n + 1)).2.2.1 (.sendAct robust mo nm sd kw rs) st).1,
    ((interp_state_restore S c (n + 1)).2.2.1 (.sendAct robust mo nm sd kw rs) st).2⟩
  · rw [rcv_wrapped_some S c n m orig st ctx h]
  · cases robust with
    | true => rw [act_send_robust]; rfl
    | false => rw [act_send_plain]; rfl

/-- Witness for C1 at a concrete input: a receiver that raises, invoked
through the wrapper inside an active context; the error comes through
unchanged and depth and current context are restored. -/
theorem claim_C1_witness :
    wSt.currentContext = some wCtx
    ∧ (((interp [] 0 3).rcv (.wrapped 0 (.base "mod.bad" [] (.error (.user "boom")))) wSt).1
        = ((interp [] 0 2).rcv (.base "mod.bad" [] (.error (.user "boom")))
            (enterCtx (Ctx.mk wCtx.call (some wCtx))
              (log_receive [] wCtx (.base "mod.bad" [] (.error (.user "boom"))) wSt))).1
      ∧ ((interp [] 0 3).rcv (.wrapped 0 (.base "mod.bad" [] (.error (.user "boom")))) wSt).2.depth
          = wSt.depth
      ∧ ((interp [] 0 3).rcv
            (.wrapped 0 (.base "mod.bad" [] (.error (.user "boom")))) wSt).2.currentContext
          = wSt.currentContext
      ∧ ((interp [] 0 3).act (.sendAct false "" "x" (.obj "s2") { instanceVal := none } []) wSt).1
        = (if false then
            Except.ok ((interp [] 0 2).robust (live_receivers_wrapper 0 [])
              (sendInner [] "SEND_ROBUST" "" "x" (.obj "s2") { instanceVal := none } wSt)).1
           else
            ((interp [] 0 2).plain (live_receivers_wrapper 0 [])
              (sendInner [] "SEND" "" "x" (.obj "s2") { instanceVal := none } wSt)).1)
      ∧ ((interp [] 0 3).act
            (.sendAct false "" "x" (.obj "s2") { instanceVal := none } []) wSt).2.depth = wSt.depth
      ∧ ((interp [] 0 3).act
            (.sendAct false "" "x" (.obj "s2") { instanceVal := none } []) wSt).2.currentContext
          = wSt.currentContext) :=
  ⟨rfl, claim_C1 [] 0 2 0 (.base "mod.bad" [] (.error (.user "boom"))) wSt wCtx rfl
    false "" "x" (.obj "s2") { instanceVal := none } []⟩

/-- Claim C3: running any program (any mix of channels and of plain and
fault-tolerant sends, nesting included) from the fresh process state
allocates as sequence numbers exactly the integers `1 .. call_count`, in
dispatch order, strictly increasing. -/
theorem claim_C3 (S : List String) (c n : Nat) (prog : List Act) :
    ((interp S c n).acts prog initState).2.seqLog
      = List.range' 1 ((interp S c n).acts prog initState).2.callCount
    ∧ List.Pairwise (fun x y => x < y) ((interp S c n).acts prog initState).2.seqLog := by
  have h := ((interp_seq S c n).2.1) prog initState
  have hseq : ((interp S c n).acts prog initState).2.seqLog
      = List.range' 1 ((interp S c n).acts prog initState).2.callCount := by
    have h2 := h.2
    simpa [initState] using h2
  refine ⟨hseq, ?_⟩
  rw [hseq]
  exact List.pairwise_lt_range' 1 _

/-- Claim C4: wrapping is idempotent per cycle.  Re-running the wrapped
handler enumeration any number `K ≥ 1` of times equals running it once
(`patch_receiver` collapses repeated applications); a handler already tagged
by the current cycle sentinel is returned unchanged; one tagged by another
cycle sentinel is unwrapped to its stored original and re-wrapped with one
fresh layer.  Consequently a plain handler enumerated `K` times carries one
wrapper, and invoking it once emits exactly one RECEIVING line — never `K` —
and returns the handler result. -/
theorem claim_C4 (S : List String) (c s m K n : Nat) (hK : 1 ≤ K) (r o : Rcv)
    (d : String) (ret : Except Err Val) (st : TraceState) (ctx : Ctx)
    (hcc : st.currentContext = some ctx) (hns : ctx.call.name ∉ S) :
    (patch_receiver s)^[K] r = patch_receiver s r
    ∧ (s = m → patch_receiver s (.wrapped m o) = .wrapped m o)
    ∧ (s ≠ m → patch_receiver s (.wrapped m o) = .wrapped s o)
    ∧ ((interp S c (n + 3)).rcv ((patch_receiver s)^[K] (.base d [] ret)) st).2.output
        = st.output ++
          [{ chan := ctx.call.name, number := ctx.call.number, depth := st.depth,
             text := indentStr st.depth ++ ("RECEIVING " ++ toString ctx.call.number ++ " "
               ++ ctx.call.name ++ ": " ++ d) }]
    ∧ ((interp S c (n + 3)).rcv ((patch_receiver s)^[K] (.base d [] ret)) st).1 = ret := by
  obtain ⟨K2, rfl⟩ : ∃ K2, K = K2 + 1 := ⟨K - 1, by omega⟩
  have hcol : (patch_receiver s)^[K2 + 1] (Rcv.base d [] ret)
      = Rcv.wrapped s (.base d [] ret) := by
    rw [patch_receiver_iterate]; rfl
  have hinner : (interp S c (n + 2)).rcv (Rcv.base d [] ret)
      (enterCtx (Ctx.mk ctx.call (some ctx)) (log_receive S ctx (Rcv.base d [] ret) st))
      = (ret, enterCtx (Ctx.mk ctx.call (some ctx))
          (log_receive S ctx (Rcv.base d [] ret) st)) := by
    rw [rcv_base, acts_nil]
  refine ⟨patch_receiver_iterate s K2 r, ?_, ?_, ?_, ?_⟩
  · intro hsm; subst hsm; simp [patch_receiver]
  · intro hsm
    have hms : m ≠ s := fun hh => hsm hh.symm
    simp [patch_receiver, hms]
  · rw [hcol, rcv_wrapped_some S c (n + 2) s _ st ctx hcc, hinner]
    simp only [exitCtx_output, enterCtx_output]
    rw [log_receive_output]
    rw [if_neg hns]
    rfl
  · rw [hcol, rcv_wrapped_some S c (n + 2) s _ st ctx hcc, hinner]

/-- Witness for C4 at a concrete input: a plain handler wrapped twice by the
same cycle, invoked once inside the fixture context; output gains exactly
the one RECEIVING line and the handler result comes through. -/
theorem claim_C4_witness :
    1 ≤ 2 ∧ wSt.currentContext = some wCtx ∧ (wCtx.call.name ∉ ([] : List String))
    ∧ ((patch_receiver 5)^[2] (.base "mod.h" [] (.ok 7)) = patch_receiver 5 (.base "mod.h" [] (.ok 7))
      ∧ (5 = 9 → patch_receiver 5 (.wrapped 9 (.base "q" [] (.ok 1))) = .wrapped 9 (.base "q" [] (.ok 1)))
      ∧ (5 ≠ 9 → patch_receiver 5 (.wrapped 9 (.base "q" [] (.ok 1))) = .wrapped 5 (.base "q" [] (.ok 1)))
      ∧ ((interp [] 0 5).rcv ((patch_receiver 5)^[2] (.base "mod.h" [] (.ok 7))) wSt).2.output
          = wSt.output ++
            [{ chan := wCtx.call.name, number := wCtx.call.number, depth := wSt.depth,
               text := indentStr wSt.depth ++ ("RECEIVING " ++ toString wCtx.call.number ++ " "
                 ++ wCtx.call.name ++ ": " ++ "mod.h") }]
      ∧ ((interp [] 0 5).rcv ((patch_receiver 5)^[2] (.base "mod.h" [] (.ok 7))) wSt).1 = .ok 7) :=
  ⟨by decide, rfl, by simp,
    claim_C4 [] 0 5 9 2 2 (by decide) (.base "mod.h" [] (.ok 7)) (.base "q" [] (.ok 1))
      "mod.h" (.ok 7) wSt wCtx rfl (by simp)⟩

/-- The first line a patched dispatch emits is its own header, logged at the
depth and with the sequence number current at entry. -/
theorem act_head_output (S : List String) (c n : Nat) (robust : Bool) (mo nm : String)
    (sd : Sender) (kw : Kwargs) (rs : List Rcv) (st : TraceState) (hns : nm ∉ S) :
    ∃ t, ((interp S c (n + 1)).act (.sendAct robust mo nm sd kw rs) st).2.output
      = st.output ++
        { chan := nm, number := st.callCount + 1, depth := st.depth,
          text := indentStr st.depth
            ++ log_call_msg
                (with_call (if robust then "SEND_ROBUST" else "SEND") mo nm sd kw st).1 }
        :: t := by
  cases robust with
  | true =>
    obtain ⟨t1, h1⟩ := (interp_output_extend S c n).2.2.2.2 (live_receivers_wrapper c rs)
      (sendInner S "SEND_ROBUST" mo nm sd kw st)
    refine ⟨t1, ?_⟩
    rw [act_send_robust]
    simp only [exitCtx_output]
    rw [h1, sendInner_output, if_neg hns]
    simp
  | false =>
    obtain ⟨t1, h1⟩ := (interp_output_extend S c n).2.2.2.1 (live_receivers_wrapper c rs)
      (sendInner S "SEND" mo nm sd kw st)
    refine ⟨t1, ?_⟩
    rw [act_send_plain]
    simp only [exitCtx_output]
    rw [h1, sendInner_output, if_neg hns]
    simp

/-- Running a body that starts with a dispatch: the first emitted line is
that dispatch's header. -/
theorem acts_head_output (S : List String) (c n : Nat) (robust : Bool) (mo nm : String)
    (sd : Sender) (kw : Kwargs) (rs : List Rcv) (rest : List Act) (st : TraceState)
    (hns : nm ∉ S) :
    ∃ t, ((interp S c (n + 2)).acts (Act.sendAct robust mo nm sd kw rs :: rest) st).2.output
      = st.output ++
        { chan := nm, number := st.callCount + 1, depth := st.depth,
          text := indentStr st.depth
            ++ log_call_msg
                (with_call (if robust then "SEND_ROBUST" else "SEND") mo nm sd kw st).1 }
        :: t := by
  obtain ⟨t1, h1⟩ := act_head_output S c n robust mo nm sd kw rs st hns
  rw [acts_cons]
  cases hres : ((interp S c (n + 1)).act (.sendAct robust mo nm sd kw rs) st).1 with
  | error e => exact ⟨t1, by simpa using h1⟩
  | ok u =>
    obtain ⟨t2, h2⟩ := (interp_output_extend S c (n + 1)).2.1 rest
      ((interp S c (n + 1)).act (.sendAct robust mo nm sd kw rs) st).2
    refine ⟨t1 ++ t2, ?_⟩
    simp only []
    rw [h2, h1]
    simp

/-- Claim C5: nesting.  A handler invoked (through its wrapper) while
dispatch `S` is current logs its RECEIVING line at the current depth; a
dispatch its body issues logs its header exactly one indent unit deeper and
under a fresh sequence number, strictly greater than the sequence number of
the enclosing dispatch (which is at most the current `call_count`). -/
theorem claim_C5 (c n s : Nat) (d : String) (robust : Bool) (mo nm : String)
    (sd : Sender) (kw : Kwargs) (rs : List Rcv) (rest : List Act)
    (ret : Except Err Val) (st : TraceState) (ctx : Ctx)
    (hcc : st.currentContext = some ctx) (hnum : ctx.call.number ≤ st.callCount) :
    ∃ tail,
      ((interp [] c (n + 4)).rcv
          (.wrapped s (.base d (Act.sendAct robust mo nm sd kw rs :: rest) ret)) st).2.output
        = st.output
          ++ { chan := ctx.call.name, number := ctx.call.number, depth := st.depth,
               text := indentStr st.depth ++ ("RECEIVING " ++ toString ctx.call.number ++ " "
                 ++ ctx.call.name ++ ": " ++ d) }
          :: { chan := nm, number := st.callCount + 1, depth := st.depth + 1,
               text := indentStr (st.depth + 1)
                 ++ log_call_msg
                     { number := st.callCount + 1,
                       method := if robust then "SEND_ROBUST" else "SEND",
                       module := mo, name := nm, sender := sd, kwargs := kw } }
          :: tail
      ∧ ctx.call.number < st.callCount + 1 := by
  obtain ⟨t, ht⟩ := acts_head_output [] c n robust mo nm sd kw rs rest
    (enterCtx (Ctx.mk ctx.call (some ctx))
      (log_receive [] ctx (.base d (Act.sendAct robust mo nm sd kw rs :: rest) ret) st))
    (by simp)
  refine ⟨t, ?_, by omega⟩
  rw [rcv_wrapped_some [] c (n + 3) s _ st ctx hcc]
  simp only [exitCtx_output]
  rw [rcv_base_snd [] c (n + 2) d _ ret _, ht]
  rw [enterCtx_output, log_receive_output]
  simp only [List.mem_nil_iff, if_neg]
  simp only [enterCtx_depth, enterCtx_callCount, log_receive_depth, log_receive_callCount]
  simp [with_call, resolve_receiver, get_receiver_name]

/-- Witness for C5 at a concrete input: a handler whose body performs one
dispatch, run inside the fixture context (sequence 1 current, count 1). -/
theorem claim_C5_witness :
    wSt.currentContext = some wCtx ∧ wCtx.call.number ≤ wSt.callCount
    ∧ (∃ tail,
      ((interp [] 0 4).rcv
          (.wrapped 5 (.base "mod.h"
            [Act.sendAct false "" "inner.sig" (.obj "s2") { instanceVal := none } []] (.ok 7))) wSt).2.output
        = wSt.output
          ++ { chan := wCtx.call.name, number := wCtx.call.number, depth := wSt.depth,
               text := indentStr wSt.depth ++ ("RECEIVING " ++ toString wCtx.call.number ++ " "
                 ++ wCtx.call.name ++ ": " ++ "mod.h") }
          :: { chan := "inner.sig", number := wSt.callCount + 1, depth := wSt.depth + 1,
               text := indentStr (wSt.depth + 1)
                 ++ log_call_msg
                     { number := wSt.callCount + 1,
                       method := if false then "SEND_ROBUST" else "SEND",
                       module := "", name := "inner.sig", sender := .obj "s2",
                       kwargs := { instanceVal := none } } }
          :: tail
      ∧ wCtx.call.number < wSt.callCount + 1) :=
  ⟨rfl, by decide,
    claim_C5 0 0 5 "mod.h" false "" "inner.sig" (.obj "s2") { instanceVal := none } [] []
      (.ok 7) wSt wCtx rfl (by decide)⟩

/-- Claim C9: suppression.  When a channel name is in the suppress set, a
patched dispatch on it adds no output line carrying that channel name (any
such line predates the dispatch), while the dispatch returns exactly the
responses it would return with an empty suppress set — the handlers still
execute — and every state component except the output (depth, call count,
current context, allocation order) also matches the unsuppressed run. -/
theorem claim_C9 (S : List String) (c n : Nat) (a : Act) (st : TraceState) (nm : String)
    (hnm : nm ∈ S) :
    (∀ l ∈ ((interp S c n).act a st).2.output, l.chan = nm → l ∈ st.output)
    ∧ ((interp S c n).act a st).1 = ((interp [] c n).act a st).1
    ∧ StOk ((interp S c n).act a st).2 ((interp [] c n).act a st).2 := by
  refine ⟨?_, ?_, ?_⟩
  · intro l hl hchan
    rcases (interp_suppressed_silent S c n).2.2.1 a st l hl with hpre | hout
    · exact hpre
    · exact absurd (hchan ▸ hnm) hout
  · exact ((interp_suppress_agnostic S [] c n).2.2.1 a st st (StOk.refl st)).1
  · exact ((interp_suppress_agnostic S [] c n).2.2.1 a st st (StOk.refl st)).2

/-- Witness for C9 at a concrete input: the channel of the dispatch is
suppressed; no line for it is emitted, and the responses equal those of the
unsuppressed run. -/
theorem claim_C9_witness :
    "orders.created" ∈ ["orders.created"]
    ∧ ((∀ l ∈ ((interp ["orders.created"] 0 10).act
          (Act.sendAct false "" "orders.created" (.type "Order") { instanceVal := none }
            [.base "module.on_created" [] (.ok 0)]) initState).2.output,
        l.chan = "orders.created" → l ∈ initState.output)
      ∧ ((interp ["orders.created"] 0 10).act
          (Act.sendAct false "" "orders.created" (.type "Order") { instanceVal := none }
            [.base "module.on_created" [] (.ok 0)]) initState).1
        = ((interp [] 0 10).act
          (Act.sendAct false "" "orders.created" (.type "Order") { instanceVal := none }
            [.base "module.on_created" [] (.ok 0)]) initState).1
      ∧ StOk ((interp ["orders.created"] 0 10).act
          (Act.sendAct false "" "orders.created" (.type "Order") { instanceVal := none }
            [.base "module.on_created" [] (.ok 0)]) initState).2
        ((interp [] 0 10).act
          (Act.sendAct false "" "orders.created" (.type "Order") { instanceVal := none }
            [.base "module.on_created" [] (.ok 0)]) initState).2) :=
  ⟨by decide,
    claim_C9 ["orders.created"] 0 10
      (Act.sendAct false "" "orders.created" (.type "Order") { instanceVal := none }
        [.base "module.on_created" [] (.ok 0)]) initState "orders.created" (by decide)⟩

/-- Claim C2: install followed by revert is the identity on the channel.
`patch_signal` captures the three original entry points and `unpatch`
assigns them back, so the reverted channel equals the original record, and
each entry point — handler enumeration, send, fault-tolerant send — returns
results identical to the original's on every input (same handlers, same
count, same return values), for an unchanged registry. -/
theorem claim_C2 (S : List String) (c : Nat) (mo nm : String) (sig : SignalCls) :
    (patch_signal S c mo nm sig).2 ((patch_signal S c mo nm sig).1) = sig
    ∧ (∀ rs, ((patch_signal S c mo nm sig).2 ((patch_signal S c mo nm sig).1)).live_receivers rs
        = sig.live_receivers rs)
    ∧ (∀ sd kw rs st,
        ((patch_signal S c mo nm sig).2 ((patch_signal S c mo nm sig).1)).send sd kw rs st
          = sig.send sd kw rs st)
    ∧ (∀ sd kw rs st,
        ((patch_signal S c mo nm sig).2 ((patch_signal S c mo nm sig).1)).send_robust sd kw rs st
          = sig.send_robust sd kw rs st) := by
  have h : (patch_signal S c mo nm sig).2 ((patch_signal S c mo nm sig).1) = sig := by
    cases sig; rfl
  exact ⟨h, fun rs => by rw [h], fun sd kw rs st => by rw [h], fun sd kw rs st => by rw [h]⟩

/-- The scenario of claim C6: a freshly instrumented channel resolved as
`("", "orders.created")`, one handler displaying as `module.on_created`, one
plain send with sender the class `Order` and empty kwargs, run from the
fresh process state. -/
def ordersAct : Act :=
  Act.sendAct false "" "orders.created" (.type "Order") { instanceVal := none }
    [.base "module.on_created" [] (.ok 0)]

/-- The strings the scenario of claim C6 hands to the output sink. -/
def ordersTexts : List String :=
  (((interp [] 0 10).acts [ordersAct] initState).2.output).map LogLine.text

/-- Counterexample to claim C6 as stated: with an empty keyword payload the
sink does not receive the two claimed strings — `log_call` appends the
` (1)` identifier only when the kwargs carry an `instance` with a `pk`, and
the RECEIVING line is emitted at depth 1, hence indented. -/
theorem claim_C6_counterexample :
    ¬ (ordersTexts
        = ["SEND 1 orders.created Order",
           "RECEIVING 1 orders.created: module.on_created"]
      ∨ ordersTexts
        = ["SEND 1 orders.created Order (1)",
           "RECEIVING 1 orders.created: module.on_created"]) := by
  decide

/-- Claim C6 as amended: the scenario emits exactly two lines, in order the
send header `SEND 1 orders.created Order` (no identifier suffix, since the
payload is empty) and the receive line indented by one indent unit, and both
lines carry sequence number 1. -/
theorem claim_C6 :
    ordersTexts
      = ["SEND 1 orders.created Order",
         "    RECEIVING 1 orders.created: module.on_created"]
    ∧ (((interp [] 0 10).acts [ordersAct] initState).2.output).map LogLine.number = [1, 1] := by
  constructor <;> rfl

/-- Claim C7, the code evaluated at the failing input: two referrers with
the same container name, one private attribute `_x` and one public `pub`.
The sort key uses `attr.startswith('_')` with the *maximum* taken, so the
private name wins, contradicting both the claim and the source comment
`# prefer non-private names`. -/
theorem claim_C7_code_eval :
    get_signal_name [("mod", "_x"), ("mod", "pub")] = some ("mod", "_x")
    ∧ get_signal_name [("mod", "_x"), ("mod", "pub")] ≠ some ("mod", "pub") := by
  exact ⟨rfl, by decide⟩

/-- Claim C8, the code evaluated at the failing input: with no referrer the
comprehension yields the empty list and `sorted([])[-1]` raises
`IndexError` (modelled by `none`) instead of returning an empty container
name. -/
theorem claim_C8_code_eval : get_signal_name [] = none := rfl

end TraceSignals
